import Mathlib

/-!
Verification development for the self-healing-reserve recovery agent.

The definitions below are a shallow embedding of the orchestration core of
the repository: the recovery orchestrator (recovery.ts, the revision with
step records), the confidential dark-pool strategy (darkpool.ts), the
metrics collector (metrics.ts) and the agent event handler (index.ts).
External effects (wallet tool calls, clocks, randomness) are passed in as
explicit environment values; JavaScript numbers are modelled as rationals
together with the NaN and Infinity special values.
-/

namespace SelfHealingReserve

set_option maxRecDepth 8192

/-! ## Generic list helpers -/

/-- Last `n` elements of a list; models the JavaScript `arr.slice(-n)`
used by the metrics collector (for lists no longer than needed it returns
the whole list, as `slice` does). -/
def takeLast {α : Type} (n : Nat) (l : List α) : List α :=
  l.drop (l.length - n)

/-- Boolean test that `p` is an initial segment of `l`. -/
def frontOfB {α : Type} [DecidableEq α] : List α → List α → Bool
  | [], _ => true
  | _ :: _, [] => false
  | a :: as, b :: bs => a = b && frontOfB as bs

/-- Boolean test that `p` occurs as a contiguous segment of `l`
(substring occurrence when the lists are lists of characters). -/
def occursIn {α : Type} [DecidableEq α] (p : List α) : List α → Bool
  | [] => frontOfB p []
  | b :: bs => frontOfB p (b :: bs) || occursIn p bs

/-! ## JavaScript numbers and parseFloat -/

/-- The values a JavaScript number used by the routing logic can take:
NaN, the two infinities, or a finite value modelled as a rational. -/
inductive JSNum where
  | nan
  | inf
  | negInf
  | val (q : ℚ)
deriving DecidableEq

/-- Whitespace skipped by `parseFloat`. -/
def isWsChar (c : Char) : Bool :=
  c = ' ' || c = '\t' || c = '\n' || c = '\r' || c = '\x0b' || c = '\x0c'

/-- Numeric value of a decimal digit character. -/
def digitVal (c : Char) : Nat := c.toNat - '0'.toNat

/-- Value of a list of decimal digit characters read in base 10. -/
def natOfDigits (l : List Char) : Nat :=
  l.foldl (fun a c => a * 10 + digitVal c) 0

/-- Exact rational value of a signed decimal with integer-and-fraction
digits of value `M`, `f` fractional digits and decimal exponent `e`:
the number `sign * M * 10 ^ (e - f)`. The JavaScript engine rounds this
to binary64; the model keeps the exact rational. -/
def jsDecValue (neg : Bool) (M f : Nat) (e : Int) : ℚ :=
  let num : Int := if neg then -(M : Int) else (M : Int)
  if (f : Int) ≤ e then mkRat (num * ((10 ^ (e - (f : Int)).toNat : Nat) : Int)) 1
  else mkRat num ((10 : Nat) ^ ((f : Int) - e).toNat)

/-- Exponent part accepted by `parseFloat` after the mantissa: an `e` or
`E`, an optional sign and a run of digits; an incomplete exponent is
ignored (exponent 0). -/
def readExp : List Char → Int
  | [] => 0
  | c :: r =>
    if c = 'e' || c = 'E' then
      let (eneg, r1) : Bool × List Char :=
        match r with
        | '+' :: rr => (false, rr)
        | '-' :: rr => (true, rr)
        | _ => (false, r)
      let ds := r1.takeWhile Char.isDigit
      if ds.isEmpty then 0
      else if eneg then -(natOfDigits ds : Int) else (natOfDigits ds : Int)
    else 0

/-- Model of the JavaScript `parseFloat`: skip leading whitespace, read an
optional sign, accept an `Infinity` literal, otherwise read integer
digits, an optional fractional part and an optional exponent, ignoring any
trailing garbage; NaN when no digits were read. -/
def parseFloat (s : String) : JSNum :=
  let l := s.toList.dropWhile isWsChar
  let (neg, l1) : Bool × List Char :=
    match l with
    | '+' :: r => (false, r)
    | '-' :: r => (true, r)
    | _ => (false, l)
  if l1.take 8 = "Infinity".toList then
    if neg then JSNum.negInf else JSNum.inf
  else
    let ip := l1.takeWhile Char.isDigit
    let l2 := l1.dropWhile Char.isDigit
    let (fp, l3) : List Char × List Char :=
      match l2 with
      | '.' :: r => (r.takeWhile Char.isDigit, r.dropWhile Char.isDigit)
      | _ => ([], l2)
    if ip.isEmpty && fp.isEmpty then JSNum.nan
    else
      JSNum.val (jsDecValue neg (natOfDigits (ip ++ fp)) fp.length (readExp l3))

/-- JavaScript `>` between a number and a finite threshold: false for NaN. -/
def jsGt (x : JSNum) (q : ℚ) : Bool :=
  match x with
  | JSNum.nan => false
  | JSNum.inf => true
  | JSNum.negInf => false
  | JSNum.val v => q < v

/-! ## Mechanism selection (recovery.ts line 24) -/

/-- The two settlement mechanisms. -/
inductive Mechanism where
  | direct
  | confidential
deriving DecidableEq

/-- The `useDarkPool` condition of `executeRecovery`:
`deficitAmount && parseFloat(deficitAmount) > 10000`. An absent deficit
and the empty string (falsy in JavaScript) route to the direct path. -/
def useDarkPool (deficitAmount : Option String) : Bool :=
  match deficitAmount with
  | none => false
  | some s => if s = "" then false else jsGt (parseFloat s) 10000

/-- Mechanism selected by `executeRecovery` for a given optional deficit. -/
def selectMechanism (deficitAmount : Option String) : Mechanism :=
  if useDarkPool deficitAmount then Mechanism.confidential else Mechanism.direct

/-! ## Structured values, step records and results -/

/-- A JSON-like value appearing in step payloads: a string, boolean or
integer field. -/
inductive JVal where
  | s (v : String)
  | b (v : Bool)
  | i (n : Int)
deriving DecidableEq

/-- A JSON-like object, as an ordered field list. -/
abbrev JObj := List (String × JVal)

/-- Result shape of a wallet tool invocation (wallet.ts). -/
structure WalletResult where
  success : Bool
  data : Option JObj := none
  error : Option String := none
deriving DecidableEq

/-- One recovery step record. The TypeScript declares a union type for
`step`, but the orchestrator casts dark-pool kinds into it unchanged, so
the runtime value is an arbitrary string and is modelled as such. -/
structure RecoveryStep where
  step : String
  success : Bool
  timestamp : Int
  durationMs : Option Int := none
  data : Option JObj := none
  error : Option String := none
deriving DecidableEq

/-- The orchestrator result shape (recovery.ts): note it has no
`mechanism` and no `confidential` field. -/
structure RecoveryResult where
  success : Bool
  steps : List RecoveryStep
  durationMs : Int
deriving DecidableEq

/-- The dark-pool strategy result shape (darkpool.ts). -/
structure DarkPoolRecoveryResult where
  success : Bool
  mechanism : String
  steps : List RecoveryStep
  durationMs : Int
  confidential : Bool
deriving DecidableEq

/-! ## Environments for external effects

Clock readings (`Date.now()`) are threaded as an explicit list consumed in
program order; random identifier suffixes and wallet call outcomes are
environment fields. -/

/-- Next `Date.now()` reading from the threaded clock list. -/
def tickT : List Int → Int
  | [] => 0
  | t :: _ => t

/-- Clock list remaining after one `Date.now()` reading. -/
def tickR : List Int → List Int
  | [] => []
  | _ :: r => r

/-- Environment of the direct (wallet) path: the outcome of each of the
three wallet calls and the clock. -/
structure DirectEnv where
  balance : WalletResult
  trade : WalletResult
  send : WalletResult
  clock : List Int

/-- Environment of the dark-pool strategy: for each simulated CCC call,
whether it throws (and with what message), the random suffixes the
simulations draw, the base-36 clock rendering used for the request id,
and the clock. -/
structure DarkPoolEnv where
  encryptErr : Option String := none
  encryptRnd : String := ""
  submitErr : Option String := none
  submitTime36 : String := ""
  matchErr : Option String := none
  matchRnd : String := ""
  settleErr : Option String := none
  settleHashRnd : String := ""
  settleAttRnd : String := ""
  settleTxRnd : String := ""
  clock : List Int := []

/-! ## Dark-pool strategy (darkpool.ts) -/

/-- Lower-case hexadecimal digit. -/
def hexDigitChar (n : Nat) : Char :=
  if n < 10 then Char.ofNat ('0'.toNat + n) else Char.ofNat ('a'.toNat + (n - 10))

/-- Hex encoding of one character, as `Buffer.from(s).toString('hex')`
renders it (the model assumes single-byte characters, which covers the
numeric amount strings the program passes). -/
def hexEncodeChar (c : Char) : List Char :=
  [hexDigitChar (c.toNat / 16 % 16), hexDigitChar (c.toNat % 16)]

/-- Hex encoding of a string, byte by byte. -/
def hexEncode (s : String) : List Char :=
  (s.toList.map hexEncodeChar).flatten

/-- First `n` characters; models the JavaScript `str.slice(0, n)`. -/
def sliceTo (s : String) (n : Nat) : String :=
  String.mk (s.toList.take n)

/-- The simulated CCC threshold encryption: the literal prefix, the hex
encoding of the amount, then a random suffix (`Math.random().toString(16).slice(2, 34)`,
passed in as `rnd`). -/
def simulateCCCThresholdEncryption (amount : String) (rnd : String) : String :=
  "0xCCC_THRESHOLD_" ++ String.mk (hexEncode amount) ++ rnd

/-- The dark-pool recovery sequence of darkpool.ts, step by step with
stop-on-first-failure; error steps carry no duration, matching the code. -/
def executeDarkPoolRecovery (deficitAmount : String) (env : DarkPoolEnv) :
    DarkPoolRecoveryResult :=
  let startTime := tickT env.clock
  let c0 := tickR env.clock
  let step1Start := tickT c0
  let c1 := tickR c0
  match env.encryptErr with
  | some msg =>
    let step : RecoveryStep :=
      { step := "encryptRequest", success := false, timestamp := step1Start,
        error := some ("CCC threshold encryption failed: " ++ msg) }
    { success := false, mechanism := "darkpool", steps := [step],
      durationMs := tickT c1 - startTime, confidential := true }
  | none =>
    let encryptedRequest := simulateCCCThresholdEncryption deficitAmount env.encryptRnd
    let s1 : RecoveryStep :=
      { step := "encryptRequest", success := true, timestamp := step1Start,
        durationMs := some (tickT c1 - step1Start),
        data := some [("encryptedPayload", JVal.s (sliceTo encryptedRequest 20 ++ "...")),
                      ("encryption", JVal.s "CCC Threshold (master public key)"),
                      ("vaultDON", JVal.s "Vault DON re-encrypts for assigned enclave")] }
    let c2 := tickR c1
    let step2Start := tickT c2
    let c3 := tickR c2
    match env.submitErr with
    | some msg =>
      let step : RecoveryStep :=
        { step := "submitToPool", success := false, timestamp := step2Start,
          error := some ("Dark pool submission failed: " ++ msg) }
      { success := false, mechanism := "darkpool", steps := [s1, step],
        durationMs := tickT c3 - startTime, confidential := true }
    | none =>
      let requestId := "req_" ++ env.submitTime36
      let s2 : RecoveryStep :=
        { step := "submitToPool", success := true, timestamp := step2Start,
          durationMs := some (tickT c3 - step2Start),
          data := some [("requestId", JVal.s requestId),
                        ("poolAddress", JVal.s "0xDarkPool..."),
                        ("premium", JVal.s "1.0%"),
                        ("timeout", JVal.s "1 hour")] }
      let c4 := tickR c3
      let step3Start := tickT c4
      let c5 := tickR c4
      match env.matchErr with
      | some msg =>
        let step : RecoveryStep :=
          { step := "monitorFill", success := false, timestamp := step3Start,
            error := some ("CCC enclave matching failed: " ++ msg) }
        { success := false, mechanism := "darkpool", steps := [s1, s2, step],
          durationMs := tickT c5 - startTime, confidential := true }
      | none =>
        let fillAttestation := "0xCCC_ATTESTATION_" ++ env.matchRnd
        let s3 : RecoveryStep :=
          { step := "monitorFill", success := true, timestamp := step3Start,
            durationMs := some (tickT c5 - step3Start),
            data := some [("filled", JVal.b true),
                          ("cccAttestation", JVal.s (sliceTo fillAttestation 30 ++ "...")),
                          ("matchedMakers", JVal.i 3),
                          ("settlement", JVal.s "CCC Private Token Transfer")] }
        let c6 := tickR c5
        let step4Start := tickT c6
        let c7 := tickR c6
        match env.settleErr with
        | some msg =>
          let step : RecoveryStep :=
            { step := "settle", success := false, timestamp := step4Start,
              error := some ("CCC settlement failed: " ++ msg) }
          { success := false, mechanism := "darkpool", steps := [s1, s2, s3, step],
            durationMs := tickT c7 - startTime, confidential := true }
        | none =>
          let balanceHash := "0xBALANCE_HASH_" ++ env.settleHashRnd
          let settleAttestation := "0xCCC_QUORUM_SIG_" ++ env.settleAttRnd
          let s4 : RecoveryStep :=
            { step := "settle", success := true, timestamp := step4Start,
              durationMs := some (tickT c7 - step4Start),
              data := some [("settled", JVal.b true),
                            ("balanceHash", JVal.s (sliceTo balanceHash 30 ++ "...")),
                            ("cccAttestation", JVal.s (sliceTo settleAttestation 30 ++ "...")),
                            ("txHash", JVal.s ("0x" ++ env.settleTxRnd)),
                            ("onChainData", JVal.s "Encrypted balance hash + boolean + CCC attestation")] }
          { success := true, mechanism := "darkpool", steps := [s1, s2, s3, s4],
            durationMs := tickT (tickR c7) - startTime, confidential := true }

/-! ## Direct (wallet) path and orchestrator (recovery.ts) -/

/-- The three-step direct recovery sequence of recovery.ts, with
stop-on-first-failure; both branches of every step carry a duration. -/
def directRun (env : DirectEnv) : RecoveryResult :=
  let startTime := tickT env.clock
  let c0 := tickR env.clock
  let step1Start := tickT c0
  let c1 := tickR c0
  let balance := env.balance
  let step1Duration := tickT c1 - step1Start
  let c2 := tickR c1
  if !balance.success then
    { success := false,
      steps := [{ step := "checkBalance", success := false, timestamp := step1Start,
                  durationMs := some step1Duration, error := balance.error }],
      durationMs := tickT c2 - startTime }
  else
    let s1 : RecoveryStep :=
      { step := "checkBalance", success := true, timestamp := step1Start,
        durationMs := some step1Duration, data := balance.data }
    let step2Start := tickT c2
    let c3 := tickR c2
    let trade := env.trade
    let step2Duration := tickT c3 - step2Start
    let c4 := tickR c3
    if !trade.success then
      { success := false,
        steps := [s1, { step := "trade", success := false, timestamp := step2Start,
                        durationMs := some step2Duration, error := trade.error }],
        durationMs := tickT c4 - startTime }
    else
      let s2 : RecoveryStep :=
        { step := "trade", success := true, timestamp := step2Start,
          durationMs := some step2Duration, data := trade.data }
      let step3Start := tickT c4
      let c5 := tickR c4
      let send := env.send
      let step3Duration := tickT c5 - step3Start
      let c6 := tickR c5
      if !send.success then
        { success := false,
          steps := [s1, s2, { step := "send", success := false, timestamp := step3Start,
                              durationMs := some step3Duration, error := send.error }],
          durationMs := tickT c6 - startTime }
      else
        let s3 : RecoveryStep :=
          { step := "send", success := true, timestamp := step3Start,
            durationMs := some step3Duration, data := send.data }
        { success := true, steps := [s1, s2, s3], durationMs := tickT c6 - startTime }

/-- The orchestrator of recovery.ts: route by `useDarkPool`; on the
dark-pool path, map the strategy result into the orchestrator result
shape, spreading each step payload and adding `mechanism: darkpool` and
`confidential: true` entries to it. -/
def executeRecovery (deficitAmount : Option String) (denv : DirectEnv)
    (dpenv : DarkPoolEnv) : RecoveryResult :=
  if useDarkPool deficitAmount then
    let result := executeDarkPoolRecovery (deficitAmount.getD "") dpenv
    { success := result.success,
      steps := result.steps.map (fun s =>
        { step := s.step, success := s.success, timestamp := s.timestamp,
          durationMs := s.durationMs,
          data := some ((s.data.getD []) ++
            [("mechanism", JVal.s "darkpool"), ("confidential", JVal.b true)]),
          error := s.error }),
      durationMs := result.durationMs }
  else directRun denv

/-- Step kinds of a step list. -/
def stepKinds (steps : List RecoveryStep) : List String :=
  steps.map (fun s => s.step)

/-- Full step-kind list of the direct strategy. -/
def directKinds : List String := ["checkBalance", "trade", "send"]

/-- Full step-kind list of the dark-pool strategy. -/
def darkPoolKinds : List String := ["encryptRequest", "submitToPool", "monitorFill", "settle"]

/-! ## Metrics collector (metrics.ts) -/

/-- One error-log entry; `context` is the optional `{ steps }` object the
agent passes on ordinary failures. -/
structure ErrEntry where
  timestamp : Int
  step : String
  error : String
  context : Option (List RecoveryStep) := none
deriving DecidableEq

/-- The collector state. -/
structure RecoveryMetrics where
  totalRecoveries : Nat
  successfulRecoveries : Nat
  failedRecoveries : Nat
  totalResponseTimeMs : Int
  errors : List ErrEntry
  startTime : Int
deriving DecidableEq

/-- The constructor state of `MetricsCollector`. -/
def initialMetrics (now : Int) : RecoveryMetrics :=
  { totalRecoveries := 0, successfulRecoveries := 0, failedRecoveries := 0,
    totalResponseTimeMs := 0, errors := [], startTime := now }

/-- `recordRecoveryStart`: increments only the attempt counter. -/
def recordRecoveryStart (m : RecoveryMetrics) : RecoveryMetrics :=
  { m with totalRecoveries := m.totalRecoveries + 1 }

/-- `recordRecoverySuccess`. -/
def recordRecoverySuccess (m : RecoveryMetrics) (durationMs : Int) : RecoveryMetrics :=
  { m with successfulRecoveries := m.successfulRecoveries + 1,
           totalResponseTimeMs := m.totalResponseTimeMs + durationMs }

/-- `recordRecoveryFailure`: push an error entry, then keep only the last
100 entries when the log exceeds 100. -/
def recordRecoveryFailure (m : RecoveryMetrics) (now : Int) (step error : String)
    (durationMs : Int) (context : Option (List RecoveryStep)) : RecoveryMetrics :=
  let errs := m.errors ++ [{ timestamp := now, step := step, error := error,
                             context := context }]
  if 100 < errs.length then
    { m with failedRecoveries := m.failedRecoveries + 1,
             totalResponseTimeMs := m.totalResponseTimeMs + durationMs,
             errors := takeLast 100 errs }
  else
    { m with failedRecoveries := m.failedRecoveries + 1,
             totalResponseTimeMs := m.totalResponseTimeMs + durationMs,
             errors := errs }

/-- The summary shape returned by `getMetrics`; rates are modelled as
exact rationals in place of binary64 values. -/
structure MetricsSummary where
  totalRecoveries : Nat
  successfulRecoveries : Nat
  failedRecoveries : Nat
  successRate : ℚ
  avgResponseTimeMs : ℚ
  uptimeSeconds : Int
  errorCount : Nat
  recentErrors : List ErrEntry
deriving DecidableEq

/-- `getMetrics`: a pure projection of the state; the success rate is the
success fraction times 100, the average divides the cumulative time by
the attempt counter, both 0 when no attempt was recorded. -/
def getMetrics (m : RecoveryMetrics) (now : Int) : MetricsSummary :=
  { totalRecoveries := m.totalRecoveries,
    successfulRecoveries := m.successfulRecoveries,
    failedRecoveries := m.failedRecoveries,
    successRate :=
      if 0 < m.totalRecoveries then
        (m.successfulRecoveries : ℚ) / (m.totalRecoveries : ℚ) * 100
      else 0,
    avgResponseTimeMs :=
      if 0 < m.totalRecoveries then
        (m.totalResponseTimeMs : ℚ) / (m.totalRecoveries : ℚ)
      else 0,
    uptimeSeconds := (now - m.startTime) / 1000,
    errorCount := m.errors.length,
    recentErrors := takeLast 10 m.errors }

/-- One update call on the collector. -/
inductive MetricsOp where
  | start
  | success (durationMs : Int)
  | failure (now : Int) (step error : String) (durationMs : Int)
      (context : Option (List RecoveryStep))

/-- Apply one update call. -/
def applyOp (m : RecoveryMetrics) : MetricsOp → RecoveryMetrics
  | MetricsOp.start => recordRecoveryStart m
  | MetricsOp.success d => recordRecoverySuccess m d
  | MetricsOp.failure now st er d ctx => recordRecoveryFailure m now st er d ctx

/-- Apply a sequence of update calls in order. -/
def runOps (m : RecoveryMetrics) (ops : List MetricsOp) : RecoveryMetrics :=
  ops.foldl applyOp m

/-- Number of `recordRecoveryStart` calls in a sequence. -/
def countStarts : List MetricsOp → Nat
  | [] => 0
  | MetricsOp.start :: r => countStarts r + 1
  | MetricsOp.success _ :: r => countStarts r
  | MetricsOp.failure _ _ _ _ _ :: r => countStarts r

/-- Number of completion calls (success or failure) in a sequence. -/
def countCompletions : List MetricsOp → Nat
  | [] => 0
  | MetricsOp.start :: r => countCompletions r
  | MetricsOp.success _ :: r => countCompletions r + 1
  | MetricsOp.failure _ _ _ _ _ :: r => countCompletions r + 1

/-- Number of success calls in a sequence. -/
def countSuccesses : List MetricsOp → Nat
  | [] => 0
  | MetricsOp.start :: r => countSuccesses r
  | MetricsOp.success _ :: r => countSuccesses r + 1
  | MetricsOp.failure _ _ _ _ _ :: r => countSuccesses r

/-- Number of failure calls in a sequence. -/
def countFailures : List MetricsOp → Nat
  | [] => 0
  | MetricsOp.start :: r => countFailures r
  | MetricsOp.success _ :: r => countFailures r
  | MetricsOp.failure _ _ _ _ _ :: r => countFailures r + 1

/-- The error entries a sequence of update calls pushes, in order. -/
def failureEntries : List MetricsOp → List ErrEntry
  | [] => []
  | MetricsOp.start :: r => failureEntries r
  | MetricsOp.success _ :: r => failureEntries r
  | MetricsOp.failure now st er _ ctx :: r =>
    { timestamp := now, step := st, error := er, context := ctx } :: failureEntries r

/-! ## Agent event handler (index.ts) -/

/-- The observable agent state: the `recovering` guard flag, the metrics,
and a counter of strategy executions started (for stating exclusivity). -/
structure AgentState where
  recovering : Bool
  metrics : RecoveryMetrics
  executionsStarted : Nat
deriving DecidableEq

/-- The synchronous part of the monitor callback, up to the first await:
on a solvency-false notification with the guard clear it sets the guard,
records the attempt start and begins a strategy execution; otherwise it
changes nothing (the notification is dropped, not queued). -/
def notifyArrival (st : AgentState) (isSolvent : Bool) : AgentState :=
  if !isSolvent && !st.recovering then
    { recovering := true,
      metrics := recordRecoveryStart st.metrics,
      executionsStarted := st.executionsStarted + 1 }
  else st

/-- The completion of an in-flight attempt (the code after the strategy
returns, through the `finally`): record the outcome and clear the guard. -/
def attemptSettled (st : AgentState) (m : RecoveryMetrics) : AgentState :=
  { st with recovering := false, metrics := m }

/-- The catch branch of the callback (index.ts lines 80-92): record an
`exception` failure in the metrics and build the synthetic result the
agent reports to the dashboard, which carries an empty steps list. -/
def handleRecoveryException (m : RecoveryMetrics) (errorMessage : String)
    (durationMs : Int) (now : Int) : RecoveryMetrics × RecoveryResult :=
  (recordRecoveryFailure m now "exception" errorMessage durationMs none,
   { success := false, steps := [], durationMs := durationMs })

/-! ## Digit-run bounds

A plaintext amount consisting of decimal digits can occur inside a logged
string only where that string has a run of consecutive digit characters
at least as long as the amount; the lemmas below bound such runs. -/

/-- Length of the leading run of digit characters. -/
def runLen : List Char → Nat
  | [] => 0
  | c :: cs => if c.isDigit then runLen cs + 1 else 0

/-- Length of the longest run of consecutive digit characters. -/
def maxRun : List Char → Nat
  | [] => 0
  | c :: cs => max (runLen (c :: cs)) (maxRun cs)

theorem runLen_cons_digit {c : Char} (l : List Char) (h : c.isDigit = true) :
    runLen (c :: l) = runLen l + 1 := by
  simp [runLen, h]

theorem runLen_cons_nondigit {c : Char} (l : List Char) (h : c.isDigit = false) :
    runLen (c :: l) = 0 := by
  simp [runLen, h]

theorem runLen_append_le (l1 l2 : List Char) :
    runLen (l1 ++ l2) ≤ l1.length + runLen l2 := by
  induction l1 with
  | nil => simp
  | cons c cs ih =>
    by_cases h : c.isDigit
    · rw [List.cons_append, runLen_cons_digit _ h]
      simp only [List.length_cons]
      omega
    · rw [List.cons_append, runLen_cons_nondigit _ (by simpa using h)]
      exact Nat.zero_le _

theorem runLen_cons_le (c : Char) (l : List Char) :
    runLen (c :: l) ≤ runLen l + 1 := by
  by_cases h : c.isDigit
  · rw [runLen_cons_digit _ h]
  · rw [runLen_cons_nondigit _ (by simpa using h)]
    exact Nat.zero_le _

theorem maxRun_append_le (l1 l2 : List Char) :
    maxRun (l1 ++ l2) ≤ max (l1.length + runLen l2) (maxRun l2) := by
  induction l1 with
  | nil => simp [maxRun]
  | cons c cs ih =>
    rw [List.cons_append]
    show max (runLen (c :: (cs ++ l2))) (maxRun (cs ++ l2)) ≤ _
    have h1 : runLen (c :: (cs ++ l2)) ≤ (c :: cs).length + runLen l2 := by
      calc runLen (c :: (cs ++ l2)) ≤ runLen (cs ++ l2) + 1 := runLen_cons_le _ _
        _ ≤ (cs.length + runLen l2) + 1 := Nat.succ_le_succ (runLen_append_le _ _)
        _ = (c :: cs).length + runLen l2 := by simp; omega
    have h2 : maxRun (cs ++ l2) ≤ max ((c :: cs).length + runLen l2) (maxRun l2) := by
      refine le_trans ih (max_le_max ?_ le_rfl)
      simp
    exact max_le (le_trans h1 (le_max_left _ _)) h2

theorem frontOfB_digits_le_runLen (p : List Char) :
    ∀ l, frontOfB p l = true → (∀ c ∈ p, c.isDigit = true) → p.length ≤ runLen l := by
  induction p with
  | nil => intro l _ _; exact Nat.zero_le _
  | cons a as ih =>
    intro l hf hd
    cases l with
    | nil => simp [frontOfB] at hf
    | cons b bs =>
      rw [frontOfB, Bool.and_eq_true, decide_eq_true_eq] at hf
      obtain ⟨rfl, hf2⟩ := hf
      have hb : a.isDigit = true := hd a (by simp)
      rw [runLen_cons_digit _ hb]
      have := ih bs hf2 (fun c hc => hd c (by simp [hc]))
      simpa using Nat.succ_le_succ this

theorem occursIn_digits_le_maxRun (p : List Char) :
    ∀ l, occursIn p l = true → (∀ c ∈ p, c.isDigit = true) → p.length ≤ maxRun l := by
  intro l
  induction l with
  | nil =>
    intro ho hd
    have := frontOfB_digits_le_runLen p [] (by simpa [occursIn] using ho) hd
    simpa [maxRun, runLen] using this
  | cons b bs ih =>
    intro ho hd
    rw [occursIn, Bool.or_eq_true] at ho
    rcases ho with ho | ho
    · exact le_trans (frontOfB_digits_le_runLen p (b :: bs) ho hd)
        (le_max_left _ _)
    · exact le_trans (ih ho hd) (le_max_right _ _)

theorem maxRun_payload_le (m4 : List Char) (h4 : m4.length = 4) :
    maxRun ("0xCCC_THRESHOLD_".toList ++ (m4 ++ ['.', '.', '.'])) ≤ 4 := by
  have h0 : ('0').isDigit = true := by decide
  have hx : ('x').isDigit = false := by decide
  have hC : ('C').isDigit = false := by decide
  have hu : ('_').isDigit = false := by decide
  have hT : ('T').isDigit = false := by decide
  have hH : ('H').isDigit = false := by decide
  have hR : ('R').isDigit = false := by decide
  have hE : ('E').isDigit = false := by decide
  have hS : ('S').isDigit = false := by decide
  have hO : ('O').isDigit = false := by decide
  have hL : ('L').isDigit = false := by decide
  have hD : ('D').isDigit = false := by decide
  have hb := maxRun_append_le m4 ['.', '.', '.']
  have hr : runLen ['.', '.', '.'] = 0 := by decide
  have hm : maxRun ['.', '.', '.'] = 0 := by decide
  rw [hr, hm, h4] at hb
  have hb4 : maxRun (m4 ++ ['.', '.', '.']) ≤ 4 := by simpa using hb
  have hA : "0xCCC_THRESHOLD_".toList =
      ['0', 'x', 'C', 'C', 'C', '_', 'T', 'H', 'R', 'E', 'S', 'H', 'O', 'L', 'D', '_'] := by
    decide
  rw [hA]
  simp only [List.cons_append, List.nil_append, List.append_eq, maxRun, runLen,
    h0, hx, hC, hu, hT, hH, hR, hE, hS, hO, hL, hD,
    if_true, if_false, Bool.false_eq_true]
  simp only [max_le_iff, List.append_eq, List.nil_append] at *
  omega

/-- Length of the hex encoding of a character list. -/
theorem hexEncodeList_length (l : List Char) :
    ((l.map hexEncodeChar).flatten).length = 2 * l.length := by
  induction l with
  | nil => simp
  | cons c cs ih =>
    simp only [List.map_cons, List.flatten_cons, List.length_append, ih,
      List.length_cons]
    have : (hexEncodeChar c).length = 2 := by simp [hexEncodeChar]
    omega

/-- The step-1 payload string decomposes into the constant prefix, the
first four characters of the hex encoding plus random suffix, and the
trailing dots. -/
theorem step1Payload_toList (amount rnd : String) :
    (sliceTo (simulateCCCThresholdEncryption amount rnd) 20 ++ "...").toList =
      "0xCCC_THRESHOLD_".toList ++
        ((hexEncode amount ++ rnd.toList).take 4 ++ ['.', '.', '.']) := by
  have hdata : (simulateCCCThresholdEncryption amount rnd).toList =
      "0xCCC_THRESHOLD_".toList ++ (hexEncode amount ++ rnd.toList) := by
    simp [simulateCCCThresholdEncryption, String.toList, String.data_append, String.mk]
  have hAlen : ("0xCCC_THRESHOLD_".toList).length = 16 := by decide
  have : (sliceTo (simulateCCCThresholdEncryption amount rnd) 20).toList =
      "0xCCC_THRESHOLD_".toList ++ (hexEncode amount ++ rnd.toList).take 4 := by
    simp only [sliceTo, String.toList, String.mk]
    rw [show (simulateCCCThresholdEncryption amount rnd).data =
        (simulateCCCThresholdEncryption amount rnd).toList from rfl, hdata]
    rw [List.take_append_eq_append_take, hAlen]
    congr 1
  calc (sliceTo (simulateCCCThresholdEncryption amount rnd) 20 ++ "...").toList
      = (sliceTo (simulateCCCThresholdEncryption amount rnd) 20).toList ++
        "...".toList := by simp [String.toList, String.data_append]
    _ = "0xCCC_THRESHOLD_".toList ++
        ((hexEncode amount ++ rnd.toList).take 4 ++ ['.', '.', '.']) := by
      have hdots : "...".toList = ['.', '.', '.'] := by decide
      rw [this, hdots, List.append_assoc]

/-- The amount, all digits and at least five characters long, cannot occur
in the step-1 payload string. -/
theorem amount_not_in_step1Payload (amount rnd : String)
    (hdig : ∀ c ∈ amount.toList, c.isDigit = true)
    (hlen : 5 ≤ amount.toList.length) :
    occursIn amount.toList
      (sliceTo (simulateCCCThresholdEncryption amount rnd) 20 ++ "...").toList = false := by
  by_contra h
  have ho : occursIn amount.toList
      (sliceTo (simulateCCCThresholdEncryption amount rnd) 20 ++ "...").toList = true := by
    revert h
    cases occursIn amount.toList
      (sliceTo (simulateCCCThresholdEncryption amount rnd) 20 ++ "...").toList <;> simp
  rw [step1Payload_toList amount rnd] at ho
  have hbound := occursIn_digits_le_maxRun _ _ ho hdig
  have h4 : ((hexEncode amount ++ rnd.toList).take 4).length = 4 := by
    rw [List.length_take]
    have hhex : (hexEncode amount).length = 2 * amount.toList.length := by
      simpa [hexEncode] using hexEncodeList_length amount.toList
    simp only [List.length_append, hhex]
    omega
  have := maxRun_payload_le _ h4
  omega

/-! ## Properties of takeLast and the metrics updates -/

theorem takeLast_length {α : Type} (n : Nat) (l : List α) :
    (takeLast n l).length = min n l.length := by
  simp only [takeLast, List.length_drop]
  omega

theorem takeLast_of_length_le {α : Type} {n : Nat} {l : List α}
    (h : l.length ≤ n) : takeLast n l = l := by
  have : l.length - n = 0 := by omega
  simp [takeLast, this]

theorem takeLast_append_one {α : Type} (n : Nat) (l : List α) (e : α) :
    takeLast n (takeLast n l ++ [e]) = takeLast n (l ++ [e]) := by
  by_cases hle : l.length ≤ n
  · rw [takeLast_of_length_le hle]
  · have hn : n < l.length := by omega
    have hlen : (takeLast n l).length = n := by
      rw [takeLast_length]; omega
    cases n with
    | zero =>
      have h1 : takeLast 0 (takeLast 0 l ++ [e]) = [] := by
        simp [takeLast]
      have h2 : takeLast 0 (l ++ [e]) = [] := by
        simp [takeLast]
      rw [h1, h2]
    | succ m =>
      show ((takeLast (m + 1) l ++ [e]).drop ((takeLast (m + 1) l ++ [e]).length - (m + 1))) = _
      rw [List.length_append, hlen]
      have harith : m + 1 + [e].length - (m + 1) = 1 := by simp
      rw [harith]
      rw [List.drop_append_of_le_length (by omega)]
      show (l.drop (l.length - (m + 1))).drop 1 ++ [e] = _
      rw [List.drop_drop]
      show l.drop (l.length - (m + 1) + 1) ++ [e] = (l ++ [e]).drop ((l ++ [e]).length - (m + 1))
      rw [List.length_append]
      have h2 : l.length + [e].length - (m + 1) = l.length - (m + 1) + 1 := by
        simp; omega
      rw [h2, List.drop_append_of_le_length (by omega)]

theorem takeLast_getLast? {α : Type} {n : Nat} (hn : 0 < n) (l : List α) :
    (takeLast n l).getLast? = l.getLast? := by
  rcases l.eq_nil_or_concat with rfl | ⟨l2, e, rfl⟩
  · simp [takeLast]
  · simp only [List.concat_eq_append]
    by_cases hle : (l2 ++ [e]).length ≤ n
    · rw [takeLast_of_length_le hle]
    · rw [List.getLast?_concat]
      show ((l2 ++ [e]).drop ((l2 ++ [e]).length - n)).getLast? = some e
      rw [List.length_append]
      have h2 : l2.length + [e].length - n = l2.length - (n - 1) := by
        simp; omega
      rw [h2, List.drop_append_of_le_length (by omega), List.getLast?_concat]

/-- The error log after a failure record is always exactly the last 100
entries of the previous log with the new entry appended (the branch with
no eviction coincides with this, since dropping `length - 100 = 0`
elements is the identity). -/
theorem errors_recordRecoveryFailure (m : RecoveryMetrics) (now : Int)
    (step error : String) (durationMs : Int) (context : Option (List RecoveryStep)) :
    (recordRecoveryFailure m now step error durationMs context).errors =
      takeLast 100 (m.errors ++ [{ timestamp := now, step := step, error := error,
                                   context := context }]) := by
  rw [recordRecoveryFailure]
  split
  · rfl
  · next h =>
    show m.errors ++ [_] = _
    rw [takeLast_of_length_le (by omega)]

/-- Counters after a failure record. -/
theorem counters_recordRecoveryFailure (m : RecoveryMetrics) (now : Int)
    (step error : String) (durationMs : Int) (context : Option (List RecoveryStep)) :
    (recordRecoveryFailure m now step error durationMs context).failedRecoveries =
        m.failedRecoveries + 1 ∧
      (recordRecoveryFailure m now step error durationMs context).successfulRecoveries =
        m.successfulRecoveries ∧
      (recordRecoveryFailure m now step error durationMs context).totalRecoveries =
        m.totalRecoveries ∧
      (recordRecoveryFailure m now step error durationMs context).totalResponseTimeMs =
        m.totalResponseTimeMs + durationMs := by
  rw [recordRecoveryFailure]
  split <;> exact ⟨rfl, rfl, rfl, rfl⟩

theorem runOps_totalRecoveries (ops : List MetricsOp) :
    ∀ m : RecoveryMetrics,
      (runOps m ops).totalRecoveries = m.totalRecoveries + countStarts ops := by
  induction ops with
  | nil => intro m; simp [runOps, countStarts]
  | cons op rest ih =>
    intro m
    cases op with
    | start =>
      show (runOps (applyOp m MetricsOp.start) rest).totalRecoveries = _
      rw [ih, countStarts]
      simp [applyOp, recordRecoveryStart]
      omega
    | success d =>
      show (runOps (applyOp m (MetricsOp.success d)) rest).totalRecoveries = _
      rw [ih, countStarts]
      simp [applyOp, recordRecoverySuccess]
    | failure now st er d ctx =>
      show (runOps (applyOp m (MetricsOp.failure now st er d ctx)) rest).totalRecoveries = _
      rw [ih, countStarts]
      simp [applyOp, (counters_recordRecoveryFailure m now st er d ctx).2.2.1]

theorem runOps_successfulRecoveries (ops : List MetricsOp) :
    ∀ m : RecoveryMetrics,
      (runOps m ops).successfulRecoveries =
        m.successfulRecoveries + countSuccesses ops := by
  induction ops with
  | nil => intro m; simp [runOps, countSuccesses]
  | cons op rest ih =>
    intro m
    cases op with
    | start =>
      show (runOps (applyOp m MetricsOp.start) rest).successfulRecoveries = _
      rw [ih, countSuccesses]
      simp [applyOp, recordRecoveryStart]
    | success d =>
      show (runOps (applyOp m (MetricsOp.success d)) rest).successfulRecoveries = _
      rw [ih, countSuccesses]
      simp [applyOp, recordRecoverySuccess]
      omega
    | failure now st er d ctx =>
      show (runOps (applyOp m (MetricsOp.failure now st er d ctx)) rest).successfulRecoveries = _
      rw [ih, countSuccesses]
      simp [applyOp, (counters_recordRecoveryFailure m now st er d ctx).2.1]

theorem runOps_failedRecoveries (ops : List MetricsOp) :
    ∀ m : RecoveryMetrics,
      (runOps m ops).failedRecoveries = m.failedRecoveries + countFailures ops := by
  induction ops with
  | nil => intro m; simp [runOps, countFailures]
  | cons op rest ih =>
    intro m
    cases op with
    | start =>
      show (runOps (applyOp m MetricsOp.start) rest).failedRecoveries = _
      rw [ih, countFailures]
      simp [applyOp, recordRecoveryStart]
    | success d =>
      show (runOps (applyOp m (MetricsOp.success d)) rest).failedRecoveries = _
      rw [ih, countFailures]
      simp [applyOp, recordRecoverySuccess]
    | failure now st er d ctx =>
      show (runOps (applyOp m (MetricsOp.failure now st er d ctx)) rest).failedRecoveries = _
      rw [ih, countFailures]
      simp [applyOp, (counters_recordRecoveryFailure m now st er d ctx).1]
      omega

theorem countCompletions_eq (ops : List MetricsOp) :
    countCompletions ops = countSuccesses ops + countFailures ops := by
  induction ops with
  | nil => rfl
  | cons op rest ih =>
    cases op <;> simp [countCompletions, countSuccesses, countFailures, ih] <;> omega

/-- The error log after any sequence of updates is the last 100 of the
previous virtual full log. -/
theorem runOps_errors (ops : List MetricsOp) :
    ∀ (m : RecoveryMetrics) (past : List ErrEntry),
      m.errors = takeLast 100 past →
      (runOps m ops).errors = takeLast 100 (past ++ failureEntries ops) := by
  induction ops with
  | nil => intro m past h; simpa [runOps, failureEntries] using h
  | cons op rest ih =>
    intro m past h
    cases op with
    | start =>
      show (runOps (applyOp m MetricsOp.start) rest).errors = _
      exact ih _ past h
    | success d =>
      show (runOps (applyOp m (MetricsOp.success d)) rest).errors = _
      exact ih _ past h
    | failure now st er d ctx =>
      have hstep : (recordRecoveryFailure m now st er d ctx).errors =
          takeLast 100 (past ++ [⟨now, st, er, ctx⟩]) := by
        rw [errors_recordRecoveryFailure, h, takeLast_append_one]
      have h2 := ih (recordRecoveryFailure m now st er d ctx)
        (past ++ [⟨now, st, er, ctx⟩])
      have h3 := h2 hstep
      show (runOps (recordRecoveryFailure m now st er d ctx) rest).errors = _
      rw [h3, failureEntries, List.append_assoc]
      rfl

/-! ## Concrete environments used as witnesses and counterexamples -/

/-- A successful wallet call. -/
def okWallet : WalletResult := { success := true }

/-- A failing wallet call. -/
def failWallet : WalletResult := { success := false, error := some "boom" }

/-- Direct environment where all three wallet calls succeed. -/
def denvAllOk : DirectEnv :=
  { balance := okWallet, trade := okWallet, send := okWallet, clock := [] }

/-- Direct environment where the first wallet call fails. -/
def denvBalanceFail : DirectEnv :=
  { balance := failWallet, trade := okWallet, send := okWallet, clock := [] }

/-- Direct environment where the final (send) wallet call fails. -/
def denvSendFail : DirectEnv :=
  { balance := okWallet, trade := okWallet, send := failWallet, clock := [] }

/-- Dark-pool environment where step 3 (monitor-fill) throws. -/
def dpenvMatchFail : DarkPoolEnv := { matchErr := some "timeout" }

/-- The shape the failed-result step list actually has: non-empty, an
initial segment of the full kind list, last step failed, earlier steps
succeeded. -/
def failShape (steps : List RecoveryStep) (full : List String) : Prop :=
  steps ≠ [] ∧ frontOfB (stepKinds steps) full = true ∧
    steps.getLast?.map (fun s => s.success) = some false ∧
    (steps.dropLast.all fun s => s.success) = true

/-- Boolean strict-initial-segment test (initial segment and not equal). -/
def strictFrontOfB (xs ys : List String) : Bool :=
  frontOfB xs ys && !(xs == ys)

example : (directRun denvSendFail).success = false := by decide
example : stepKinds (directRun denvSendFail).steps = directKinds := by decide
example : (executeDarkPoolRecovery "75000000" dpenvMatchFail).steps.length = 3 := by decide
example : (executeRecovery (some "75000000") denvAllOk dpenvMatchFail).steps.length = 3 := by decide
example : (executeDarkPoolRecovery "5" { clock := [] }).steps.map (fun s => s.data) =
    [some [("encryptedPayload", JVal.s "0xCCC_THRESHOLD_35..."),
           ("encryption", JVal.s "CCC Threshold (master public key)"),
           ("vaultDON", JVal.s "Vault DON re-encrypts for assigned enclave")],
     some [("requestId", JVal.s "req_"), ("poolAddress", JVal.s "0xDarkPool..."),
           ("premium", JVal.s "1.0%"), ("timeout", JVal.s "1 hour")],
     some [("filled", JVal.b true), ("cccAttestation", JVal.s "0xCCC_ATTESTATION_..."),
           ("matchedMakers", JVal.i 3), ("settlement", JVal.s "CCC Private Token Transfer")],
     some [("settled", JVal.b true), ("balanceHash", JVal.s "0xBALANCE_HASH_..."),
           ("cccAttestation", JVal.s "0xCCC_QUORUM_SIG_..."),
           ("txHash", JVal.s "0x"),
           ("onChainData", JVal.s "Encrypted balance hash + boolean + CCC attestation")]] := by
  decide

/-- String data values appearing in a step payload. -/
def dataStrings (d : Option JObj) : List String :=
  (d.getD []).filterMap (fun kv =>
    match kv.2 with
    | JVal.s v => some v
    | _ => none)

/-- A run of digits of length at least 5 cannot occur in a string whose
longest digit run is at most 4. -/
theorem not_occursIn_of_maxRun_le (p l : List Char)
    (hdig : ∀ c ∈ p, c.isDigit = true) (h5 : 5 ≤ p.length)
    (hml : maxRun l ≤ 4) : occursIn p l = false := by
  cases ho : occursIn p l
  · rfl
  · have := occursIn_digits_le_maxRun p l ho hdig
    omega

/-! ## Claim theorems -/

/-- Claim C1: with the configured threshold 10000, the orchestrator
selects the direct strategy iff the deficit is absent or its numeric
value is at most 10000, and the confidential (dark-pool) strategy iff the
deficit is present with numeric value strictly greater than 10000; stated
for deficits that are absent or parse to a finite number. -/
theorem executeRecovery_selection (d : Option String)
    (h : d = none ∨ ∃ s q, d = some s ∧ parseFloat s = JSNum.val q) :
    (selectMechanism d = Mechanism.direct ↔
      (d = none ∨ ∃ s q, d = some s ∧ parseFloat s = JSNum.val q ∧ q ≤ 10000)) ∧
    (selectMechanism d = Mechanism.confidential ↔
      (∃ s q, d = some s ∧ parseFloat s = JSNum.val q ∧ 10000 < q)) := by
  rcases h with rfl | ⟨s, q, rfl, hp⟩
  · refine ⟨⟨fun _ => Or.inl rfl, fun _ => by decide⟩, ⟨fun hc => ?_, ?_⟩⟩
    · exact absurd hc (by decide)
    · rintro ⟨s, q, hsq, -⟩
      exact absurd hsq (by simp)
  · have hs : s ≠ "" := by
      intro h0
      rw [h0] at hp
      have hn : parseFloat "" = JSNum.nan := by decide
      rw [hn] at hp
      exact absurd hp (by simp)
    by_cases hq : (10000 : ℚ) < q
    · have hsel : selectMechanism (some s) = Mechanism.confidential := by
        simp [selectMechanism, useDarkPool, hs, hp, jsGt, hq]
      refine ⟨⟨fun hd => ?_, ?_⟩, ⟨fun _ => ⟨s, q, rfl, hp, hq⟩, fun _ => hsel⟩⟩
      · rw [hsel] at hd
        exact absurd hd (by decide)
      · rintro (hn | ⟨s2, q2, hs2, hp2, hle⟩)
        · exact absurd hn (by simp)
        · obtain rfl : s2 = s := by simpa using hs2.symm
          rw [hp] at hp2
          obtain rfl : q = q2 := by simpa using hp2
          exact absurd hle (not_le.mpr hq)
    · have hsel : selectMechanism (some s) = Mechanism.direct := by
        simp [selectMechanism, useDarkPool, hs, hp, jsGt, hq]
      refine ⟨⟨fun _ => Or.inr ⟨s, q, rfl, hp, not_lt.mp hq⟩, fun _ => hsel⟩,
        ⟨fun hc => ?_, ?_⟩⟩
      · rw [hsel] at hc
        exact absurd hc (by decide)
      · rintro ⟨s2, q2, hs2, hp2, hgt⟩
        obtain rfl : s2 = s := by simpa using hs2.symm
        rw [hp] at hp2
        obtain rfl : q = q2 := by simpa using hp2
        exact absurd hgt hq

/-- Witness for C1 at deficit 75000000. -/
theorem executeRecovery_selection_witness :
    (some "75000000" = none ∨
      ∃ s q, some "75000000" = some s ∧ parseFloat s = JSNum.val q) ∧
    (selectMechanism (some "75000000") = Mechanism.confidential ↔
      (∃ s q, some "75000000" = some s ∧ parseFloat s = JSNum.val q ∧ 10000 < q)) := by
  have hhyp : some "75000000" = none ∨
      ∃ s q, some "75000000" = some s ∧ parseFloat s = JSNum.val q :=
    Or.inr ⟨"75000000", 75000000, rfl, by decide⟩
  exact ⟨hhyp, (executeRecovery_selection (some "75000000") hhyp).2⟩

/-- Claim C10: a present but unparseable deficit (NaN parse), or the
empty string, routes to the direct strategy just as an absent deficit
does. -/
theorem nan_deficit_selects_direct (s : String)
    (h : parseFloat s = JSNum.nan ∨ s = "") :
    selectMechanism (some s) = Mechanism.direct ∧
    ∀ (denv : DirectEnv) (dpenv : DarkPoolEnv),
      executeRecovery (some s) denv dpenv = executeRecovery none denv dpenv := by
  have hu : useDarkPool (some s) = false := by
    rcases h with h | rfl
    · by_cases hs : s = ""
      · simp [useDarkPool, hs]
      · simp [useDarkPool, hs, h, jsGt]
    · simp [useDarkPool]
  have hun : useDarkPool none = false := rfl
  constructor
  · simp [selectMechanism, hu]
  · intro denv dpenv
    simp only [executeRecovery, hu, hun, Bool.false_eq_true, if_false]

/-- Witness for C10 at the unparseable deficit string abc. -/
theorem nan_deficit_selects_direct_witness :
    (parseFloat "abc" = JSNum.nan ∨ "abc" = "") ∧
    selectMechanism (some "abc") = Mechanism.direct ∧
    executeRecovery (some "abc") denvAllOk { } = executeRecovery none denvAllOk { } := by
  have h : parseFloat "abc" = JSNum.nan ∨ "abc" = "" := Or.inl (by decide)
  exact ⟨h, (nan_deficit_selects_direct "abc" h).1,
    (nan_deficit_selects_direct "abc" h).2 denvAllOk { }⟩

/-- Claim C2 counterexample: when the final step of the direct strategy
fails, the failed result's step-kind list equals the full kind list, so it
is not a strict initial segment of it as the claim requires. -/
theorem failed_steps_not_strict_cex :
    (directRun denvSendFail).success = false ∧
    stepKinds (directRun denvSendFail).steps = directKinds ∧
    strictFrontOfB (stepKinds (directRun denvSendFail).steps) directKinds = false := by
  decide

/-- Claim C2 (amended): a failed result's steps form a non-empty initial
segment (not necessarily strict, since the final step can be the failing
one) of the strategy's full step-kind list, with the last step failed and
all earlier steps successful. -/
theorem failed_result_step_shape (denv : DirectEnv) (amount : String)
    (dpenv : DarkPoolEnv) :
    ((directRun denv).success = false →
      failShape (directRun denv).steps directKinds) ∧
    ((executeDarkPoolRecovery amount dpenv).success = false →
      failShape (executeDarkPoolRecovery amount dpenv).steps darkPoolKinds) := by
  constructor
  · intro h
    by_cases hb : denv.balance.success
    · by_cases ht : denv.trade.success
      · by_cases hs : denv.send.success
        · exfalso
          simp [directRun, hb, ht, hs] at h
        · simp [directRun, hb, ht, hs, failShape, stepKinds, frontOfB, directKinds]
      · simp [directRun, hb, ht, failShape, stepKinds, frontOfB, directKinds]
    · simp [directRun, hb, failShape, stepKinds, frontOfB, directKinds]
  · intro h
    rcases he : dpenv.encryptErr with _ | m1
    · rcases hs : dpenv.submitErr with _ | m2
      · rcases hm : dpenv.matchErr with _ | m3
        · rcases hst : dpenv.settleErr with _ | m4
          · exfalso
            simp [executeDarkPoolRecovery, he, hs, hm, hst] at h
          · simp [executeDarkPoolRecovery, he, hs, hm, hst, failShape, stepKinds,
              frontOfB, darkPoolKinds]
        · simp [executeDarkPoolRecovery, he, hs, hm, failShape, stepKinds,
            frontOfB, darkPoolKinds]
      · simp [executeDarkPoolRecovery, he, hs, failShape, stepKinds,
          frontOfB, darkPoolKinds]
    · simp [executeDarkPoolRecovery, he, failShape, stepKinds,
        frontOfB, darkPoolKinds]

/-- Witness for the amended C2 at a first-step direct failure and a
third-step dark-pool failure. -/
theorem failed_result_step_shape_witness :
    (directRun denvBalanceFail).success = false ∧
    failShape (directRun denvBalanceFail).steps directKinds ∧
    (executeDarkPoolRecovery "75000000" dpenvMatchFail).success = false ∧
    failShape (executeDarkPoolRecovery "75000000" dpenvMatchFail).steps darkPoolKinds := by
  refine ⟨by decide,
    (failed_result_step_shape denvBalanceFail "75000000" dpenvMatchFail).1 (by decide),
    by decide,
    (failed_result_step_shape denvBalanceFail "75000000" dpenvMatchFail).2 (by decide)⟩

/-- Claim C3: a solvency-false notification arriving while the guard is
set changes nothing (no strategy execution, no metrics update, nothing
queued), and from an idle state a pair of solvency-false notifications
starts exactly one strategy execution. -/
theorem monitor_exclusivity (st : AgentState) :
    (st.recovering = true → notifyArrival st false = st) ∧
    (st.recovering = false →
      (notifyArrival st false).recovering = true ∧
      (notifyArrival st false).executionsStarted = st.executionsStarted + 1 ∧
      (notifyArrival st false).metrics = recordRecoveryStart st.metrics ∧
      notifyArrival (notifyArrival st false) false = notifyArrival st false) := by
  constructor
  · intro h
    simp [notifyArrival, h]
  · intro h
    simp [notifyArrival, h]

/-- Witness for C3 at a busy and an idle agent state. -/
theorem monitor_exclusivity_witness :
    ((⟨true, initialMetrics 0, 0⟩ : AgentState).recovering = true) ∧
    notifyArrival ⟨true, initialMetrics 0, 0⟩ false = ⟨true, initialMetrics 0, 0⟩ ∧
    ((⟨false, initialMetrics 0, 0⟩ : AgentState).recovering = false) ∧
    notifyArrival (notifyArrival ⟨false, initialMetrics 0, 0⟩ false) false =
      notifyArrival ⟨false, initialMetrics 0, 0⟩ false := by
  refine ⟨rfl, (monitor_exclusivity _).1 rfl, rfl,
    ((monitor_exclusivity _).2 rfl).2.2.2⟩

/-- Claim C4 counterexample: after a strategy exception the result the
agent forwards to the reporting sink has an empty steps list, not a
single step of kind exception. -/
theorem exception_report_empty_steps_cex :
    (handleRecoveryException (initialMetrics 0) "boom" 5 7).2.steps = [] ∧
    ((handleRecoveryException (initialMetrics 0) "boom" 5 7).2.steps.filter
      (fun s => s.step = "exception")).length ≠ 1 := by
  decide

/-- Claim C4 (amended): the orchestrator catches a strategy exception,
records a failure entry of step kind exception with the metrics
collector, and forwards to the reporting sink a synthetic failed
RecoveryResult whose steps list is empty. -/
theorem exception_report (m : RecoveryMetrics) (msg : String)
    (durationMs now : Int) :
    (handleRecoveryException m msg durationMs now).2.success = false ∧
    (handleRecoveryException m msg durationMs now).2.steps = [] ∧
    (handleRecoveryException m msg durationMs now).2.durationMs = durationMs ∧
    (handleRecoveryException m msg durationMs now).1.failedRecoveries =
      m.failedRecoveries + 1 ∧
    (handleRecoveryException m msg durationMs now).1.errors.getLast? =
      some ⟨now, "exception", msg, none⟩ := by
  refine ⟨rfl, rfl, rfl,
    (counters_recordRecoveryFailure m now "exception" msg durationMs none).1, ?_⟩
  show (recordRecoveryFailure m now "exception" msg durationMs none).errors.getLast? = _
  rw [errors_recordRecoveryFailure, takeLast_getLast? (by norm_num),
    List.getLast?_concat]

/-- Claim C5 counterexample: in the 75,000,000-deficit scenario with the
monitor-fill step failing, the strategy labels its result darkpool, not
confidential, and the orchestrator rewrites every step payload while
mapping the result into its own shape, which carries no mechanism or
confidential field at all. -/
theorem confidential_scenario_relabel_cex :
    (executeDarkPoolRecovery "75000000" dpenvMatchFail).mechanism = "darkpool" ∧
    (executeDarkPoolRecovery "75000000" dpenvMatchFail).mechanism ≠ "confidential" ∧
    (executeRecovery (some "75000000") denvAllOk dpenvMatchFail).steps ≠
      (executeDarkPoolRecovery "75000000" dpenvMatchFail).steps ∧
    (executeRecovery (some "75000000") denvAllOk dpenvMatchFail).steps.map
        (fun s => s.data) ≠
      (executeDarkPoolRecovery "75000000" dpenvMatchFail).steps.map
        (fun s => s.data) := by
  decide

/-- Claim C5 (amended): with deficit 75,000,000 and the monitor-fill step
failing, the orchestrator result has success false and exactly 3 steps;
the strategy result carries mechanism darkpool and confidential true; the
orchestrator preserves step kinds and success flags while mapping (its own
result shape has no mechanism or confidential field; it augments each step
payload with darkpool and confidential entries instead). -/
theorem confidential_scenario (denv : DirectEnv) (dpenv : DarkPoolEnv)
    (msg : String) (he : dpenv.encryptErr = none) (hs : dpenv.submitErr = none)
    (hm : dpenv.matchErr = some msg) :
    (executeRecovery (some "75000000") denv dpenv).success = false ∧
    (executeRecovery (some "75000000") denv dpenv).steps.length = 3 ∧
    (executeDarkPoolRecovery "75000000" dpenv).mechanism = "darkpool" ∧
    (executeDarkPoolRecovery "75000000" dpenv).confidential = true ∧
    stepKinds (executeRecovery (some "75000000") denv dpenv).steps =
      stepKinds (executeDarkPoolRecovery "75000000" dpenv).steps ∧
    (executeRecovery (some "75000000") denv dpenv).steps.map (fun s => s.success) =
      (executeDarkPoolRecovery "75000000" dpenv).steps.map (fun s => s.success) := by
  have hdark : useDarkPool (some "75000000") = true := by decide
  simp [executeRecovery, hdark, executeDarkPoolRecovery, he, hs, hm, stepKinds]

/-- Witness for the amended C5 at the concrete failing environment. -/
theorem confidential_scenario_witness :
    dpenvMatchFail.encryptErr = none ∧ dpenvMatchFail.submitErr = none ∧
    dpenvMatchFail.matchErr = some "timeout" ∧
    (executeRecovery (some "75000000") denvAllOk dpenvMatchFail).success = false ∧
    (executeRecovery (some "75000000") denvAllOk dpenvMatchFail).steps.length = 3 ∧
    (executeDarkPoolRecovery "75000000" dpenvMatchFail).mechanism = "darkpool" := by
  have h := confidential_scenario denvAllOk dpenvMatchFail "timeout" rfl rfl rfl
  exact ⟨rfl, rfl, rfl, h.1, h.2.1, h.2.2.1⟩

/-- Claim C6 counterexample: immediately after recordRecoveryStart
completes, the attempt counter exceeds the sum of success and failure
counters, so the conservation equation does not hold after every single
update. -/
theorem metrics_start_conservation_cex :
    (recordRecoveryStart (initialMetrics 0)).totalRecoveries = 1 ∧
    (recordRecoveryStart (initialMetrics 0)).successfulRecoveries +
      (recordRecoveryStart (initialMetrics 0)).failedRecoveries = 0 ∧
    ¬ ((recordRecoveryStart (initialMetrics 0)).totalRecoveries =
      (recordRecoveryStart (initialMetrics 0)).successfulRecoveries +
        (recordRecoveryStart (initialMetrics 0)).failedRecoveries) := by
  decide

/-- Claim C6 (amended): after any update sequence the attempt counter
equals the number of start calls and the success plus failure counters
equal the number of completion calls, so the conservation equation
totalAttempts = successCount + failureCount holds exactly when every
started attempt has completed (and is off by the number of in-flight
starts otherwise). -/
theorem metrics_conservation (t : Int) (ops : List MetricsOp) :
    (runOps (initialMetrics t) ops).totalRecoveries = countStarts ops ∧
    (runOps (initialMetrics t) ops).successfulRecoveries +
      (runOps (initialMetrics t) ops).failedRecoveries = countCompletions ops ∧
    (countStarts ops = countCompletions ops →
      (runOps (initialMetrics t) ops).totalRecoveries =
        (runOps (initialMetrics t) ops).successfulRecoveries +
          (runOps (initialMetrics t) ops).failedRecoveries) := by
  have h1 := runOps_totalRecoveries ops (initialMetrics t)
  have h2 := runOps_successfulRecoveries ops (initialMetrics t)
  have h3 := runOps_failedRecoveries ops (initialMetrics t)
  have h4 := countCompletions_eq ops
  have e1 : (initialMetrics t).totalRecoveries = 0 := rfl
  have e2 : (initialMetrics t).successfulRecoveries = 0 := rfl
  have e3 : (initialMetrics t).failedRecoveries = 0 := rfl
  refine ⟨by omega, by omega, fun h => by omega⟩

/-- Witness for the amended C6 at one completed attempt. -/
theorem metrics_conservation_witness :
    countStarts [MetricsOp.start, MetricsOp.success 5] =
      countCompletions [MetricsOp.start, MetricsOp.success 5] ∧
    (runOps (initialMetrics 0) [MetricsOp.start, MetricsOp.success 5]).totalRecoveries =
      (runOps (initialMetrics 0)
          [MetricsOp.start, MetricsOp.success 5]).successfulRecoveries +
        (runOps (initialMetrics 0)
          [MetricsOp.start, MetricsOp.success 5]).failedRecoveries :=
  ⟨by decide, (metrics_conservation 0 [MetricsOp.start, MetricsOp.success 5]).2.2
    (by decide)⟩

/-- A collector state after one started and successful attempt. -/
def mOneSuccess : RecoveryMetrics :=
  recordRecoverySuccess (recordRecoveryStart (initialMetrics 0)) 10

/-- Claim C7 counterexample: with one success out of one attempt the
summary reports 100, not the fraction 1, so the reported success rate is
the percentage, not the fraction. -/
theorem successRate_percentage_cex :
    (getMetrics mOneSuccess 0).successRate = 100 ∧
    (mOneSuccess.successfulRecoveries : ℚ) / (mOneSuccess.totalRecoveries : ℚ) = 1 ∧
    (getMetrics mOneSuccess 0).successRate ≠
      (mOneSuccess.successfulRecoveries : ℚ) / (mOneSuccess.totalRecoveries : ℚ) := by
  have e1 : mOneSuccess.successfulRecoveries = 1 := rfl
  have e2 : mOneSuccess.totalRecoveries = 1 := rfl
  have e3 : (getMetrics mOneSuccess 0).successRate = (1 : ℚ) / 1 * 100 := by
    simp [getMetrics, e1, e2]
  refine ⟨?_, ?_, ?_⟩
  · rw [e3]; norm_num
  · rw [e1, e2]; norm_num
  · rw [e3, e1, e2]; norm_num

/-- Claim C7 (amended): the summary reports the success fraction times
100 (a percentage) and the average duration, both 0 when no attempt was
recorded, and it is a pure projection of the state. -/
theorem getMetrics_spec (m : RecoveryMetrics) (now : Int) :
    (m.totalRecoveries = 0 →
      (getMetrics m now).successRate = 0 ∧
      (getMetrics m now).avgResponseTimeMs = 0) ∧
    (0 < m.totalRecoveries →
      (getMetrics m now).successRate =
        (m.successfulRecoveries : ℚ) / (m.totalRecoveries : ℚ) * 100 ∧
      (getMetrics m now).avgResponseTimeMs =
        (m.totalResponseTimeMs : ℚ) / (m.totalRecoveries : ℚ)) ∧
    (getMetrics m now).totalRecoveries = m.totalRecoveries ∧
    (getMetrics m now).successfulRecoveries = m.successfulRecoveries ∧
    (getMetrics m now).failedRecoveries = m.failedRecoveries ∧
    (getMetrics m now).errorCount = m.errors.length ∧
    (getMetrics m now).recentErrors = takeLast 10 m.errors := by
  refine ⟨fun h => ?_, fun h => ?_, rfl, rfl, rfl, rfl, rfl⟩
  · constructor <;> simp [getMetrics, h]
  · constructor <;> simp [getMetrics, h]

/-- Witness for the amended C7 at an empty and a one-success state. -/
theorem getMetrics_spec_witness :
    (initialMetrics 0).totalRecoveries = 0 ∧
    (getMetrics (initialMetrics 0) 0).successRate = 0 ∧
    0 < mOneSuccess.totalRecoveries ∧
    (getMetrics mOneSuccess 0).successRate =
      (mOneSuccess.successfulRecoveries : ℚ) / (mOneSuccess.totalRecoveries : ℚ) * 100 := by
  refine ⟨rfl, ((getMetrics_spec (initialMetrics 0) 0).1 rfl).1, by decide,
    ((getMetrics_spec mOneSuccess 0).2.1 (by decide)).1⟩

/-- Claim C8: after any update sequence the error log is exactly the last
100 pushed failure entries in push order (FIFO eviction of the oldest),
and its length never exceeds 100. -/
theorem errorLog_bound (t : Int) (ops : List MetricsOp) :
    (runOps (initialMetrics t) ops).errors = takeLast 100 (failureEntries ops) ∧
    (runOps (initialMetrics t) ops).errors.length ≤ 100 := by
  have h := runOps_errors ops (initialMetrics t) [] rfl
  rw [List.nil_append] at h
  refine ⟨h, ?_⟩
  rw [h, takeLast_length]
  omega

/-- Claim C9 counterexample: for the deficit amount 5 the recorded
encrypted payload of step 1 contains the plaintext amount as a substring
(the hex encoding of a digit is the digit 3 followed by that digit). -/
theorem darkpool_plaintext_leak_cex :
    ((executeDarkPoolRecovery "5" { clock := [] }).steps.head?.map
      (fun s => s.data)) =
      some (some [("encryptedPayload", JVal.s "0xCCC_THRESHOLD_35..."),
                  ("encryption", JVal.s "CCC Threshold (master public key)"),
                  ("vaultDON", JVal.s "Vault DON re-encrypts for assigned enclave")]) ∧
    occursIn "5".toList "0xCCC_THRESHOLD_35...".toList = true := by
  decide

/-- Claim C9 (amended): for every all-digit deficit amount of at least
five digits (in particular every amount the orchestrator routes to the
dark pool), no string recorded in the step-1 payload contains the
plaintext amount, and the records of all later steps are computed without
reference to the amount at all (they are identical for any two amounts
under the same environment). -/
theorem darkpool_no_plaintext (amount : String) (env : DarkPoolEnv)
    (hdig : ∀ c ∈ amount.toList, c.isDigit = true)
    (hlen : 5 ≤ amount.toList.length) :
    (∀ st, (executeDarkPoolRecovery amount env).steps.head? = some st →
      ∀ v ∈ dataStrings st.data, occursIn amount.toList v.toList = false) ∧
    (∀ amount2 : String,
      (executeDarkPoolRecovery amount env).steps.drop 1 =
        (executeDarkPoolRecovery amount2 env).steps.drop 1) := by
  have hpay := amount_not_in_step1Payload amount env.encryptRnd hdig hlen
  have hc1 : occursIn amount.toList
      "CCC Threshold (master public key)".toList = false :=
    not_occursIn_of_maxRun_le _ _ hdig hlen (by decide)
  have hc2 : occursIn amount.toList
      "Vault DON re-encrypts for assigned enclave".toList = false :=
    not_occursIn_of_maxRun_le _ _ hdig hlen (by decide)
  constructor
  · intro st hhead v hv
    rcases he : env.encryptErr with _ | m1
    · rcases hs : env.submitErr with _ | m2
      · rcases hm : env.matchErr with _ | m3
        · rcases hst : env.settleErr with _ | m4
          · simp [executeDarkPoolRecovery, he, hs, hm, hst] at hhead
            subst hhead
            simp [dataStrings] at hv
            rcases hv with rfl | rfl | rfl
            · exact hpay
            · exact hc1
            · exact hc2
          · simp [executeDarkPoolRecovery, he, hs, hm, hst] at hhead
            subst hhead
            simp [dataStrings] at hv
            rcases hv with rfl | rfl | rfl
            · exact hpay
            · exact hc1
            · exact hc2
        · simp [executeDarkPoolRecovery, he, hs, hm] at hhead
          subst hhead
          simp [dataStrings] at hv
          rcases hv with rfl | rfl | rfl
          · exact hpay
          · exact hc1
          · exact hc2
      · simp [executeDarkPoolRecovery, he, hs] at hhead
        subst hhead
        simp [dataStrings] at hv
        rcases hv with rfl | rfl | rfl
        · exact hpay
        · exact hc1
        · exact hc2
    · simp [executeDarkPoolRecovery, he] at hhead
      subst hhead
      simp [dataStrings] at hv
  · intro amount2
    rcases he : env.encryptErr with _ | m1
    · rcases hs : env.submitErr with _ | m2
      · rcases hm : env.matchErr with _ | m3
        · rcases hst : env.settleErr with _ | m4 <;>
            simp [executeDarkPoolRecovery, he, hs, hm, hst]
        · simp [executeDarkPoolRecovery, he, hs, hm]
      · simp [executeDarkPoolRecovery, he, hs]
    · simp [executeDarkPoolRecovery, he]

/-- Witness for the amended C9 at the all-digit amount 75000. -/
theorem darkpool_no_plaintext_witness :
    (∀ c ∈ "75000".toList, c.isDigit = true) ∧ 5 ≤ "75000".toList.length ∧
    (∀ st, (executeDarkPoolRecovery "75000" { clock := [] }).steps.head? = some st →
      ∀ v ∈ dataStrings st.data, occursIn "75000".toList v.toList = false) := by
  refine ⟨by decide, by decide,
    (darkpool_no_plaintext "75000" { clock := [] } (by decide) (by decide)).1⟩

example : parseFloat "75000000" = JSNum.val 75000000 := by decide
example : parseFloat "abc" = JSNum.nan := by decide
example : parseFloat "5000" = JSNum.val 5000 := by decide
example : selectMechanism (some "75000000") = Mechanism.confidential := by decide
example : selectMechanism (some "5000") = Mechanism.direct := by decide
example : selectMechanism (some "") = Mechanism.direct := by decide
example : selectMechanism none = Mechanism.direct := by decide

end SelfHealingReserve
